import Mathlib

/-!
Verification of the CustodyChain smart contract (src/smartcontract.go).

The Go chaincode manages `Asset` records in Hyperledger Fabric world state.
We embed the record type, its JSON serialization as performed by Go's
`encoding/json` on the `Asset` struct, the world-state stub (an ordered
key-value store with failure oracles for get/put/delete/range operations),
and the eight contract operations `InitLedger`, `CreateAsset`, `ReadAsset`,
`UpdateAsset`, `DeleteAsset`, `AssetExists`, `TransferAsset`,
`GetAllAssets`.
-/

namespace CustodyChain

/-- The `Asset` struct of smartcontract.go, fields in their Go declaration
order: CustodianName, CustodianAgency, CaseNumber, EvidenceInfo (lines
18-23).  Note the source comment at lines 16-17 asks for alphabetic field
order, but the struct is not declared in alphabetic order. -/
structure Asset where
  CustodianName : String
  CustodianAgency : String
  CaseNumber : String
  EvidenceInfo : String
deriving DecidableEq

/-- A JSON value as far as unmarshalling into a string field of `Asset`
distinguishes them: a string, `null` (which Go leaves the field untouched
by), or any other JSON value (which makes `json.Unmarshal` fail for a
string field). -/
inductive JVal where
  | jstr : String → JVal
  | jnull : JVal
  | jother : JVal
deriving DecidableEq

/-- The bytes stored in world state, viewed as a JSON document: either a
well-formed JSON object (an ordered list of key/value pairs, the order
being the byte order of the document) or bytes that do not parse as a
JSON object, on which `json.Unmarshal` into an `Asset` fails. -/
inductive Bytes where
  | jobj : List (String × JVal) → Bytes
  | jbad : Bytes
deriving DecidableEq

/-- `json.Marshal` on an `Asset`: Go emits struct fields in declaration
order, using the `json:"..."` tag of each field as the key.  The struct
declares CustodianName, CustodianAgency, CaseNumber, EvidenceInfo in that
order, so the emitted keys are custodianName, custodianAgency, caseNumber,
evidenceInfo in that order. -/
def Asset.marshal (a : Asset) : Bytes :=
  Bytes.jobj
    [("custodianName", JVal.jstr a.CustodianName),
     ("custodianAgency", JVal.jstr a.CustodianAgency),
     ("caseNumber", JVal.jstr a.CaseNumber),
     ("evidenceInfo", JVal.jstr a.EvidenceInfo)]

/-- The keys of a JSON object document, in emission order. -/
def objKeys : Bytes → List String
  | Bytes.jobj kvs => kvs.map (fun kv => kv.1)
  | Bytes.jbad => []

/-- Lower-case hexadecimal digit, as used by Go's `\u00XX` escapes. -/
def hexDigit (n : Nat) : Char :=
  if n < 10 then Char.ofNat (48 + n) else Char.ofNat (87 + n)

/-- Escaping of one character inside a JSON string, as Go's
`encoding/json` does it with its default HTML escaping: quote and
backslash get a backslash escape, newline/carriage-return/tab get their
short escapes, the other control characters and the HTML-sensitive
characters get `\u00XX`, U+2028 and U+2029 get `\u202X`. -/
def escapeChar (c : Char) : String :=
  if c = '"' then "\\\""
  else if c = '\\' then "\\\\"
  else if c = '\n' then "\\n"
  else if c = '\r' then "\\r"
  else if c = '\t' then "\\t"
  else if c = '<' ∨ c = '>' ∨ c = '&' then
    String.mk ['\\', 'u', '0', '0', hexDigit (c.toNat / 16), hexDigit (c.toNat % 16)]
  else if c.toNat < 32 then
    String.mk ['\\', 'u', '0', '0', hexDigit (c.toNat / 16), hexDigit (c.toNat % 16)]
  else if c.toNat = 8232 ∨ c.toNat = 8233 then
    String.mk ['\\', 'u', '2', '0', '2', hexDigit (c.toNat % 16)]
  else String.singleton c

/-- A JSON string literal: the escaped characters between quotes. -/
def jsonQuote (s : String) : String :=
  "\"" ++ String.join (s.data.map escapeChar) ++ "\""

/-- The byte output of `json.Marshal` on an `Asset`: the four fields as a
JSON object, keys in struct declaration order. -/
def Asset.marshalJSON (a : Asset) : String :=
  "\x7b" ++ jsonQuote "custodianName" ++ ":" ++ jsonQuote a.CustodianName
  ++ "," ++ jsonQuote "custodianAgency" ++ ":" ++ jsonQuote a.CustodianAgency
  ++ "," ++ jsonQuote "caseNumber" ++ ":" ++ jsonQuote a.CaseNumber
  ++ "," ++ jsonQuote "evidenceInfo" ++ ":" ++ jsonQuote a.EvidenceInfo
  ++ "\x7d"

/-- ASCII lower-casing of one character, as Go's case-insensitive key
matching folds ASCII letters. -/
def lowerChar (c : Char) : Char :=
  if 'A' ≤ c ∧ c ≤ 'Z' then Char.ofNat (c.toNat + 32) else c

/-- ASCII lower-casing of a string. -/
def lowerStr (s : String) : String :=
  String.mk (s.data.map lowerChar)

/-- One step of `json.Unmarshal` into an `Asset`: assign the value `v`
found under key `k` of the incoming object.  Go matches the key to a field
tag case-insensitively; a string value sets the field, `null` leaves it,
any other value is a type error; unknown keys are ignored. -/
def assignField (a : Asset) (k : String) (v : JVal) : Option Asset :=
  if lowerStr k = "custodianname" then
    match v with
    | JVal.jstr s => some { a with CustodianName := s }
    | JVal.jnull => some a
    | JVal.jother => none
  else if lowerStr k = "custodianagency" then
    match v with
    | JVal.jstr s => some { a with CustodianAgency := s }
    | JVal.jnull => some a
    | JVal.jother => none
  else if lowerStr k = "casenumber" then
    match v with
    | JVal.jstr s => some { a with CaseNumber := s }
    | JVal.jnull => some a
    | JVal.jother => none
  else if lowerStr k = "evidenceinfo" then
    match v with
    | JVal.jstr s => some { a with EvidenceInfo := s }
    | JVal.jnull => some a
    | JVal.jother => none
  else some a

/-- Fold `assignField` over the incoming object's pairs in order. -/
def assignFields : Asset → List (String × JVal) → Option Asset
  | a, [] => some a
  | a, (k, v) :: rest =>
    match assignField a k v with
    | none => none
    | some a2 => assignFields a2 rest

/-- `json.Unmarshal` of stored bytes into a fresh zero-valued `Asset`
variable, as done by `ReadAsset` and `GetAllAssets`. -/
def jsonUnmarshal : Bytes → Option Asset
  | Bytes.jbad => none
  | Bytes.jobj kvs => assignFields ⟨"", "", "", ""⟩ kvs

theorem jsonUnmarshal_marshal (a : Asset) : jsonUnmarshal a.marshal = some a := by
  cases a
  rfl

/-- The error taxonomy of the contract, matching the `fmt.Errorf` cases of
the source: store-level failure, "the asset %s already exists",
"the asset %s does not exist", and a `json.Unmarshal` failure. -/
inductive Err where
  | storeError : Err
  | alreadyExists : String → Err
  | notFound : String → Err
  | decodingError : Err
deriving DecidableEq

/-! ## The world-state stub

Fabric's world state is an ordered key-value store; `GetStateByRange`
iterates it in key order.  We model the state as an association list kept
sorted by key, together with oracles saying which store operations fail
with a store-level error (Go's non-nil `err` from the stub). -/

/-- Point lookup in the association list. -/
def lookupList (k : String) : List (String × Bytes) → Option Bytes
  | [] => none
  | (k0, v) :: rest => if k = k0 then some v else lookupList k rest

/-- Insert-or-replace keeping the list sorted by key, as `PutState`
behaves in the ordered world state. -/
def putList (k : String) (v : Bytes) : List (String × Bytes) → List (String × Bytes)
  | [] => [(k, v)]
  | (k0, v0) :: rest =>
    if k < k0 then (k, v) :: (k0, v0) :: rest
    else if k = k0 then (k, v) :: rest
    else (k0, v0) :: putList k v rest

/-- Remove a key, as `DelState` behaves. -/
def delList (k : String) : List (String × Bytes) → List (String × Bytes)
  | [] => []
  | (k0, v0) :: rest =>
    if k0 = k then delList k rest else (k0, v0) :: delList k rest

/-- The transaction stub: the world state plus failure oracles for the
four store primitives. -/
structure Stub where
  state : List (String × Bytes)
  getFails : String → Bool
  putFails : String → Bool
  delFails : String → Bool
  rangeFails : Bool

/-- `GetState`: store error, or the value at the key (`none` for absent,
which is not an error). -/
def Stub.getState (st : Stub) (k : String) : Except Err (Option Bytes) :=
  if st.getFails k then Except.error Err.storeError
  else Except.ok (lookupList k st.state)

/-- `PutState`: store error leaves the state untouched, success writes. -/
def Stub.putState (st : Stub) (k : String) (v : Bytes) : Option Err × Stub :=
  if st.putFails k then (some Err.storeError, st)
  else (none, { st with state := putList k v st.state })

/-- `DelState`: store error leaves the state untouched, success removes. -/
def Stub.delState (st : Stub) (k : String) : Option Err × Stub :=
  if st.delFails k then (some Err.storeError, st)
  else (none, { st with state := delList k st.state })

/-! ## The contract operations

Each Go method receives the transaction stub; methods that call `PutState`
or `DelState` return the (possibly updated) stub next to the Go return
values, so that the effect of the call on world state is visible even when
the method returns an error after a partial write. -/

/-- `AssetExists` (lines 133-140): `GetState`, wrap a store error, else
report whether bytes are present. -/
def AssetExists (stub : Stub) (custodianName : String) : Except Err Bool :=
  match stub.getState custodianName with
  | Except.error _ => Except.error Err.storeError
  | Except.ok assetJSON => Except.ok assetJSON.isSome

/-- `CreateAsset` (lines 52-73): existence check, fail if present, else
marshal the new record and put it under `custodianName`. -/
def CreateAsset (stub : Stub) (custodianName custodianAgency caseNumber evidenceInfo : String) :
    Option Err × Stub :=
  match AssetExists stub custodianName with
  | Except.error e => (some e, stub)
  | Except.ok true => (some (Err.alreadyExists custodianName), stub)
  | Except.ok false =>
    stub.putState custodianName
      (Asset.marshal ⟨custodianName, custodianAgency, caseNumber, evidenceInfo⟩)

/-- `ReadAsset` (lines 76-92): `GetState`, `nil` bytes mean not found,
else unmarshal. -/
def ReadAsset (stub : Stub) (custodianName : String) : Except Err Asset :=
  match stub.getState custodianName with
  | Except.error _ => Except.error Err.storeError
  | Except.ok none => Except.error (Err.notFound custodianName)
  | Except.ok (some assetJSON) =>
    match jsonUnmarshal assetJSON with
    | none => Except.error Err.decodingError
    | some asset => Except.ok asset

/-- `UpdateAsset` (lines 95-117): existence check, fail if absent, else
overwrite the whole record under `custodianName`. -/
def UpdateAsset (stub : Stub) (custodianName custodianAgency caseNumber evidenceInfo : String) :
    Option Err × Stub :=
  match AssetExists stub custodianName with
  | Except.error e => (some e, stub)
  | Except.ok false => (some (Err.notFound custodianName), stub)
  | Except.ok true =>
    stub.putState custodianName
      (Asset.marshal ⟨custodianName, custodianAgency, caseNumber, evidenceInfo⟩)

/-- `DeleteAsset` (lines 120-130): existence check, fail if absent, else
`DelState`. -/
def DeleteAsset (stub : Stub) (custodianName : String) : Option Err × Stub :=
  match AssetExists stub custodianName with
  | Except.error e => (some e, stub)
  | Except.ok false => (some (Err.notFound custodianName), stub)
  | Except.ok true => stub.delState custodianName

/-- `TransferAsset` (lines 143-164): read the record keyed by
`caseNumber`, remember the old custodian name, replace the custodian name
and agency, marshal, and put back under the same key `caseNumber`. -/
def TransferAsset (stub : Stub) (caseNumber newcustodianName newcustodianAgency : String) :
    Except Err String × Stub :=
  match ReadAsset stub caseNumber with
  | Except.error e => (Except.error e, stub)
  | Except.ok asset =>
    let oldcustodianName := asset.CustodianName
    let asset2 := { asset with
      CustodianName := newcustodianName, CustodianAgency := newcustodianAgency }
    match stub.putState caseNumber asset2.marshal with
    | (some e, stub2) => (Except.error e, stub2)
    | (none, stub2) => (Except.ok oldcustodianName, stub2)

/-- The six hard-coded records of `InitLedger` (lines 27-34). -/
def initAssets : List Asset :=
  [⟨"Zaki", "RCED", "1", "HP01/HP02"⟩,
   ⟨"Aya", "RBPF", "2", "HP01/HP02/HP03"⟩,
   ⟨"Adi", "KDN", "3", "HP01/HP02/SIM01/SIM02"⟩,
   ⟨"Dan", "CSB", "4", "HP01/HP02/SIM01/"⟩,
   ⟨"Azmi", "RCED", "5", "HP01/HP02/HP03/SIM01/SIM02"⟩,
   ⟨"Mirul", "CSB", "6", "HP01/HP02/HP03/SIM01/SIM02/SIM03"⟩]

/-- The loop of `InitLedger` (lines 36-46): marshal each record (which
cannot fail for this struct) and put it under its `CustodianName`,
returning at the first put failure. -/
def seedLoop : Stub → List Asset → Option Err × Stub
  | stub, [] => (none, stub)
  | stub, asset :: rest =>
    match stub.putState asset.CustodianName asset.marshal with
    | (some e, stub2) => (some e, stub2)
    | (none, stub2) => seedLoop stub2 rest

/-- `InitLedger` (lines 26-49). -/
def InitLedger (stub : Stub) : Option Err × Stub :=
  seedLoop stub initAssets

/-- The loop of `GetAllAssets` (lines 177-189): unmarshal each value in
iteration order, aborting with the first decoding failure. -/
def decodeEntries : List (String × Bytes) → Except Err (List Asset)
  | [] => Except.ok []
  | (_, v) :: rest =>
    match jsonUnmarshal v with
    | none => Except.error Err.decodingError
    | some a =>
      match decodeEntries rest with
      | Except.error e => Except.error e
      | Except.ok tl => Except.ok (a :: tl)

/-- `GetAllAssets` (lines 167-192): open an unbounded range scan (store
error if it cannot be opened), then decode every entry in key order. -/
def GetAllAssets (stub : Stub) : Except Err (List Asset) :=
  if stub.rangeFails then Except.error Err.storeError
  else decodeEntries stub.state

/-! ## Association-list lemmas -/

theorem lookupList_putList_self (k : String) (v : Bytes) (l : List (String × Bytes)) :
    lookupList k (putList k v l) = some v := by
  induction l with
  | nil => simp [putList, lookupList]
  | cons hd tl ih =>
    obtain ⟨k0, v0⟩ := hd
    by_cases h1 : k < k0
    · simp [putList, h1, lookupList]
    · by_cases h2 : k = k0
      · simp [putList, h1, h2, lookupList]
      · simp [putList, h1, h2, lookupList, ih]

theorem lookupList_putList_ne (k2 k : String) (v : Bytes) (l : List (String × Bytes))
    (h : k2 ≠ k) : lookupList k2 (putList k v l) = lookupList k2 l := by
  induction l with
  | nil => simp [putList, lookupList, h]
  | cons hd tl ih =>
    obtain ⟨k0, v0⟩ := hd
    by_cases h1 : k < k0
    · simp [putList, h1, lookupList, h]
    · by_cases h2 : k = k0
      · subst h2
        simp [putList, h1, lookupList, h]
      · simp [putList, h1, h2, lookupList, ih]

theorem lookupList_delList_self (k : String) (l : List (String × Bytes)) :
    lookupList k (delList k l) = none := by
  induction l with
  | nil => simp [delList, lookupList]
  | cons hd tl ih =>
    obtain ⟨k0, v0⟩ := hd
    by_cases h1 : k0 = k
    · simp [delList, h1, ih]
    · have h2 : k ≠ k0 := fun hk => h1 hk.symm
      simp [delList, h1, lookupList, h2, ih]

theorem lookupList_delList_ne (k2 k : String) (l : List (String × Bytes))
    (h : k2 ≠ k) : lookupList k2 (delList k l) = lookupList k2 l := by
  induction l with
  | nil => simp [delList]
  | cons hd tl ih =>
    obtain ⟨k0, v0⟩ := hd
    by_cases h1 : k0 = k
    · subst h1
      simp [delList, lookupList, h, ih]
    · simp [delList, h1, lookupList, ih]

/-! ## Claim theorems -/

/-- Claim C1: the spec says serialization emits keys in the fixed
alphabetical order caseNumber, custodianAgency, custodianName,
evidenceInfo.  The source's own comment (smartcontract.go lines 16-17)
states that intent, but the struct declares the fields out of alphabetical
order, and Go emits struct fields in declaration order: evaluating the
encoder on the first seeded record shows the keys come out as
custodianName, custodianAgency, caseNumber, evidenceInfo — deterministic,
but not the claimed order. -/
theorem C1_key_order_failing_input :
    objKeys (Asset.marshal ⟨"Zaki", "RCED", "1", "HP01/HP02"⟩)
      = ["custodianName", "custodianAgency", "caseNumber", "evidenceInfo"] ∧
    ¬ objKeys (Asset.marshal ⟨"Zaki", "RCED", "1", "HP01/HP02"⟩)
      = ["caseNumber", "custodianAgency", "custodianName", "evidenceInfo"] ∧
    Asset.marshalJSON ⟨"Zaki", "RCED", "1", "HP01/HP02"⟩
      = "\x7b\"custodianName\":\"Zaki\",\"custodianAgency\":\"RCED\",\"caseNumber\":\"1\",\"evidenceInfo\":\"HP01/HP02\"\x7d" := by
  refine ⟨rfl, by decide, rfl⟩

/-- Claim C3: when the key is already present (and the existence read
succeeds), `CreateAsset` fails with the already-exists error and returns
the store completely unchanged, so a subsequent read sees the original
record. -/
theorem C3_create_on_existing_fails_no_write (stub : Stub)
    (custodianName custodianAgency caseNumber evidenceInfo : String) (bs : Bytes)
    (hget : stub.getFails custodianName = false)
    (hpresent : lookupList custodianName stub.state = some bs) :
    CreateAsset stub custodianName custodianAgency caseNumber evidenceInfo
      = (some (Err.alreadyExists custodianName), stub) := by
  simp [CreateAsset, AssetExists, Stub.getState, hget, hpresent]

theorem C3_witness :
    CreateAsset
        ⟨[("Zaki", Asset.marshal ⟨"Zaki", "RCED", "1", "HP01/HP02"⟩)],
         fun _ => false, fun _ => false, fun _ => false, false⟩
        "Zaki" "X" "9" "E"
      = (some (Err.alreadyExists "Zaki"),
         ⟨[("Zaki", Asset.marshal ⟨"Zaki", "RCED", "1", "HP01/HP02"⟩)],
          fun _ => false, fun _ => false, fun _ => false, false⟩) :=
  C3_create_on_existing_fails_no_write _ "Zaki" "X" "9" "E"
    (Asset.marshal ⟨"Zaki", "RCED", "1", "HP01/HP02"⟩) rfl rfl

/-- Claim C4: on a key absent from the store (with the read succeeding),
`UpdateAsset`, `DeleteAsset` and `TransferAsset` all fail with the
not-found error and return the store completely unchanged. -/
theorem C4_absent_key_notFound (stub : Stub)
    (k custodianAgency caseNumber evidenceInfo newName newAgency : String)
    (hget : stub.getFails k = false)
    (habsent : lookupList k stub.state = none) :
    UpdateAsset stub k custodianAgency caseNumber evidenceInfo
        = (some (Err.notFound k), stub) ∧
    DeleteAsset stub k = (some (Err.notFound k), stub) ∧
    TransferAsset stub k newName newAgency = (Except.error (Err.notFound k), stub) := by
  refine ⟨?_, ?_, ?_⟩ <;>
    simp [UpdateAsset, DeleteAsset, TransferAsset, ReadAsset, AssetExists,
      Stub.getState, hget, habsent]

theorem C4_witness :
    UpdateAsset ⟨[], fun _ => false, fun _ => false, fun _ => false, false⟩
        "Ghost" "A" "7" "E"
      = (some (Err.notFound "Ghost"),
         ⟨[], fun _ => false, fun _ => false, fun _ => false, false⟩) ∧
    DeleteAsset ⟨[], fun _ => false, fun _ => false, fun _ => false, false⟩ "Ghost"
      = (some (Err.notFound "Ghost"),
         ⟨[], fun _ => false, fun _ => false, fun _ => false, false⟩) ∧
    TransferAsset ⟨[], fun _ => false, fun _ => false, fun _ => false, false⟩
        "Ghost" "N" "G"
      = (Except.error (Err.notFound "Ghost"),
         ⟨[], fun _ => false, fun _ => false, fun _ => false, false⟩) :=
  C4_absent_key_notFound _ "Ghost" "A" "7" "E" "N" "G" rfl rfl

/-- Claim C10: a full scan of an empty key namespace succeeds with the
empty sequence, provided opening the scan succeeds. -/
theorem C10_scan_empty (stub : Stub)
    (hrange : stub.rangeFails = false) (hempty : stub.state = []) :
    GetAllAssets stub = Except.ok [] := by
  simp [GetAllAssets, hrange, hempty, decodeEntries]

theorem C10_witness :
    GetAllAssets ⟨[], fun _ => false, fun _ => false, fun _ => false, false⟩
      = Except.ok [] :=
  C10_scan_empty _ rfl rfl

/-- Claim C2: when a record is stored and decodable at key `caseNumber`
(and the read and write succeed), `TransferAsset` returns the custodian
name stored immediately before the call, writes back under the same key
`caseNumber` the record with the new custodian name and agency and the old
case number and evidence info, and leaves every other key untouched. -/
theorem C2_transfer_updates_in_place (stub : Stub)
    (caseNumber newName newAgency : String) (bs : Bytes) (a : Asset)
    (hget : stub.getFails caseNumber = false)
    (hput : stub.putFails caseNumber = false)
    (hfound : lookupList caseNumber stub.state = some bs)
    (hdec : jsonUnmarshal bs = some a) :
    TransferAsset stub caseNumber newName newAgency
      = (Except.ok a.CustodianName,
         { stub with state := (putList caseNumber
             (Asset.marshal ⟨newName, newAgency, a.CaseNumber, a.EvidenceInfo⟩)
             stub.state) }) ∧
    lookupList caseNumber (TransferAsset stub caseNumber newName newAgency).2.state
      = some (Asset.marshal ⟨newName, newAgency, a.CaseNumber, a.EvidenceInfo⟩) ∧
    (∀ k2, k2 ≠ caseNumber →
      lookupList k2 (TransferAsset stub caseNumber newName newAgency).2.state
        = lookupList k2 stub.state) := by
  obtain ⟨an, aAg, aCase, aEv⟩ := a
  have hT : TransferAsset stub caseNumber newName newAgency
      = (Except.ok an,
         { stub with state := (putList caseNumber
             (Asset.marshal ⟨newName, newAgency, aCase, aEv⟩) stub.state) }) := by
    simp [TransferAsset, ReadAsset, Stub.getState, Stub.putState,
      hget, hput, hfound, hdec]
  refine ⟨hT, ?_, ?_⟩
  · rw [hT]
    exact lookupList_putList_self _ _ _
  · intro k2 hk2
    rw [hT]
    exact lookupList_putList_ne _ _ _ _ hk2

theorem C2_witness :
    (TransferAsset
        ⟨[("1", Asset.marshal ⟨"Zaki", "RCED", "1", "HP01/HP02"⟩)],
         fun _ => false, fun _ => false, fun _ => false, false⟩
        "1" "Dana" "CSB").1 = Except.ok "Zaki" ∧
    lookupList "1" (TransferAsset
        ⟨[("1", Asset.marshal ⟨"Zaki", "RCED", "1", "HP01/HP02"⟩)],
         fun _ => false, fun _ => false, fun _ => false, false⟩
        "1" "Dana" "CSB").2.state
      = some (Asset.marshal ⟨"Dana", "CSB", "1", "HP01/HP02"⟩) := by
  have h := C2_transfer_updates_in_place
    ⟨[("1", Asset.marshal ⟨"Zaki", "RCED", "1", "HP01/HP02"⟩)],
     fun _ => false, fun _ => false, fun _ => false, false⟩ "1" "Dana" "CSB"
    (Asset.marshal ⟨"Zaki", "RCED", "1", "HP01/HP02"⟩)
    ⟨"Zaki", "RCED", "1", "HP01/HP02"⟩ rfl rfl rfl rfl
  exact ⟨by rw [h.1], h.2.1⟩

/-- Claim C5: on a key absent from the store, with the involved store
operations succeeding, `CreateAsset` succeeds and a subsequent `ReadAsset`
of the same key returns the record field-for-field as created — the
encode-then-decode round trip is the identity. -/
theorem C5_create_then_read_roundtrip (stub : Stub)
    (custodianName custodianAgency caseNumber evidenceInfo : String)
    (hget : stub.getFails custodianName = false)
    (hput : stub.putFails custodianName = false)
    (habsent : lookupList custodianName stub.state = none) :
    (CreateAsset stub custodianName custodianAgency caseNumber evidenceInfo).1 = none ∧
    ReadAsset (CreateAsset stub custodianName custodianAgency caseNumber evidenceInfo).2
        custodianName
      = Except.ok ⟨custodianName, custodianAgency, caseNumber, evidenceInfo⟩ := by
  have hC : CreateAsset stub custodianName custodianAgency caseNumber evidenceInfo
      = (none, { stub with state := (putList custodianName
          (Asset.marshal ⟨custodianName, custodianAgency, caseNumber, evidenceInfo⟩)
          stub.state) }) := by
    simp [CreateAsset, AssetExists, Stub.getState, Stub.putState, hget, hput, habsent]
  rw [hC]
  refine ⟨rfl, ?_⟩
  simp [ReadAsset, Stub.getState, hget, lookupList_putList_self, jsonUnmarshal_marshal]

theorem C5_witness :
    (CreateAsset ⟨[], fun _ => false, fun _ => false, fun _ => false, false⟩
        "Zaki" "RCED" "1" "HP01/HP02").1 = none ∧
    ReadAsset (CreateAsset ⟨[], fun _ => false, fun _ => false, fun _ => false, false⟩
        "Zaki" "RCED" "1" "HP01/HP02").2 "Zaki"
      = Except.ok ⟨"Zaki", "RCED", "1", "HP01/HP02"⟩ :=
  C5_create_then_read_roundtrip
    ⟨[], fun _ => false, fun _ => false, fun _ => false, false⟩
    "Zaki" "RCED" "1" "HP01/HP02" rfl rfl rfl

/-- Claim C7: `AssetExists` fails exactly on a store-level read error and
otherwise reports whether a value is present at the key; consequently it
answers false before a successful `CreateAsset` of that key, true on the
state that call produces, and false on the state a successful
`DeleteAsset` of the key produces. -/
theorem C7_exists_iff_present (stub : Stub) (k : String) :
    (stub.getFails k = true → AssetExists stub k = Except.error Err.storeError) ∧
    (stub.getFails k = false →
      AssetExists stub k = Except.ok (lookupList k stub.state).isSome) ∧
    (∀ custodianAgency caseNumber evidenceInfo stub2,
      CreateAsset stub k custodianAgency caseNumber evidenceInfo = (none, stub2) →
      AssetExists stub k = Except.ok false ∧ AssetExists stub2 k = Except.ok true) ∧
    (∀ stub2, DeleteAsset stub k = (none, stub2) →
      AssetExists stub2 k = Except.ok false) := by
  refine ⟨?_, ?_, ?_, ?_⟩
  · intro h
    simp [AssetExists, Stub.getState, h]
  · intro h
    simp [AssetExists, Stub.getState, h]
  · intro ag cn ev stub2 hsucc
    by_cases hg : stub.getFails k
    · simp [CreateAsset, AssetExists, Stub.getState, hg] at hsucc
    · rcases hlook : lookupList k stub.state with _ | bs
      · by_cases hp : stub.putFails k
        · simp [CreateAsset, AssetExists, Stub.getState, Stub.putState,
            hg, hlook, hp] at hsucc
        · simp [CreateAsset, AssetExists, Stub.getState, Stub.putState,
            hg, hlook, hp] at hsucc
          subst hsucc
          constructor
          · simp [AssetExists, Stub.getState, hg, hlook]
          · simp [AssetExists, Stub.getState, hg, lookupList_putList_self]
      · simp [CreateAsset, AssetExists, Stub.getState, hg, hlook] at hsucc
  · intro stub2 hsucc
    by_cases hg : stub.getFails k
    · simp [DeleteAsset, AssetExists, Stub.getState, hg] at hsucc
    · rcases hlook : lookupList k stub.state with _ | bs
      · simp [DeleteAsset, AssetExists, Stub.getState, hg, hlook] at hsucc
      · by_cases hd : stub.delFails k
        · simp [DeleteAsset, AssetExists, Stub.getState, Stub.delState,
            hg, hlook, hd] at hsucc
        · simp [DeleteAsset, AssetExists, Stub.getState, Stub.delState,
            hg, hlook, hd] at hsucc
          subst hsucc
          simp [AssetExists, Stub.getState, hg, lookupList_delList_self]

theorem C7_witness :
    AssetExists ⟨[], fun _ => false, fun _ => false, fun _ => false, false⟩ "Zaki"
      = Except.ok false ∧
    AssetExists ⟨[("Zaki", Asset.marshal ⟨"Zaki", "RCED", "1", "HP01/HP02"⟩)],
        fun _ => false, fun _ => false, fun _ => false, false⟩ "Zaki"
      = Except.ok true :=
  (C7_exists_iff_present ⟨[], fun _ => false, fun _ => false, fun _ => false, false⟩
    "Zaki").2.2.1 "RCED" "1" "HP01/HP02"
    ⟨[("Zaki", Asset.marshal ⟨"Zaki", "RCED", "1", "HP01/HP02"⟩)],
     fun _ => false, fun _ => false, fun _ => false, false⟩ rfl

theorem decodeEntries_all_ok (l : List (String × Bytes))
    (h : ∀ p ∈ l, (jsonUnmarshal p.2).isSome) :
    decodeEntries l = Except.ok (l.filterMap (fun p => jsonUnmarshal p.2)) := by
  induction l with
  | nil => simp [decodeEntries]
  | cons hd tl ih =>
    obtain ⟨k0, v0⟩ := hd
    have h0 : (jsonUnmarshal v0).isSome := h (k0, v0) (List.mem_cons_self _ _)
    rcases hv : jsonUnmarshal v0 with _ | a
    · rw [hv] at h0
      simp at h0
    · have ihh := ih (fun p hp => h p (List.mem_cons_of_mem _ hp))
      simp [decodeEntries, hv, ihh]

theorem decodeEntries_has_bad (l : List (String × Bytes))
    (h : ∃ p ∈ l, jsonUnmarshal p.2 = none) :
    decodeEntries l = Except.error Err.decodingError := by
  induction l with
  | nil => simp at h
  | cons hd tl ih =>
    obtain ⟨k0, v0⟩ := hd
    rcases hv : jsonUnmarshal v0 with _ | a
    · simp [decodeEntries, hv]
    · have h2 : ∃ p ∈ tl, jsonUnmarshal p.2 = none := by
        rcases h with ⟨p, hp, hnone⟩
        rcases List.mem_cons.1 hp with rfl | hp2
        · rw [hv] at hnone
          cases hnone
        · exact ⟨p, hp2, hnone⟩
      simp [decodeEntries, hv, ih h2]

/-- Claim C6: with the range scan opening successfully, if any stored
entry fails to decode then `GetAllAssets` fails with the decoding error
and returns no partial results; otherwise it returns every record in the
store in the store's key order. -/
theorem C6_scan_aborts_or_returns_all (stub : Stub)
    (hrange : stub.rangeFails = false) :
    ((∃ p ∈ stub.state, jsonUnmarshal p.2 = none) →
      GetAllAssets stub = Except.error Err.decodingError) ∧
    ((∀ p ∈ stub.state, (jsonUnmarshal p.2).isSome) →
      GetAllAssets stub = Except.ok (stub.state.filterMap (fun p => jsonUnmarshal p.2))) := by
  constructor
  · intro h
    simp [GetAllAssets, hrange, decodeEntries_has_bad _ h]
  · intro h
    simp [GetAllAssets, hrange, decodeEntries_all_ok _ h]

theorem C6_witness :
    GetAllAssets ⟨[("Bad", Bytes.jbad),
        ("Zaki", Asset.marshal ⟨"Zaki", "RCED", "1", "HP01/HP02"⟩)],
        fun _ => false, fun _ => false, fun _ => false, false⟩
      = Except.error Err.decodingError :=
  (C6_scan_aborts_or_returns_all
    ⟨[("Bad", Bytes.jbad),
      ("Zaki", Asset.marshal ⟨"Zaki", "RCED", "1", "HP01/HP02"⟩)],
     fun _ => false, fun _ => false, fun _ => false, false⟩ rfl).1
    ⟨("Bad", Bytes.jbad), List.mem_cons_self _ _, rfl⟩

theorem seedLoop_no_failure (l : List Asset) (st : Stub)
    (h : ∀ a ∈ l, st.putFails a.CustodianName = false) :
    seedLoop st l = (none,
      { st with state :=
          (l.foldl (fun s a => putList a.CustodianName a.marshal s) st.state) }) := by
  induction l generalizing st with
  | nil => simp [seedLoop]
  | cons hd tl ih =>
    have hh : st.putFails hd.CustodianName = false := h hd (List.mem_cons_self _ _)
    have htl : ∀ a ∈ tl,
        (Stub.mk (putList hd.CustodianName hd.marshal st.state)
          st.getFails st.putFails st.delFails st.rangeFails).putFails a.CustodianName
          = false :=
      fun a ha => h a (List.mem_cons_of_mem _ ha)
    simp [seedLoop, Stub.putState, hh, ih _ htl]

theorem seedLoop_stops_at_failure (pre : List Asset) (bad : Asset) (rest : List Asset)
    (st : Stub)
    (hpre : ∀ a ∈ pre, st.putFails a.CustodianName = false)
    (hbad : st.putFails bad.CustodianName = true) :
    seedLoop st (pre ++ bad :: rest) = (some Err.storeError,
      { st with state :=
          (pre.foldl (fun s a => putList a.CustodianName a.marshal s) st.state) }) := by
  induction pre generalizing st with
  | nil => simp [seedLoop, Stub.putState, hbad]
  | cons hd tl ih =>
    have hh : st.putFails hd.CustodianName = false := hpre hd (List.mem_cons_self _ _)
    have htl : ∀ a ∈ tl,
        (Stub.mk (putList hd.CustodianName hd.marshal st.state)
          st.getFails st.putFails st.delFails st.rangeFails).putFails a.CustodianName
          = false :=
      fun a ha => hpre a (List.mem_cons_of_mem _ ha)
    simp [seedLoop, Stub.putState, hh, ih _ htl hbad]

theorem lookupList_seedFold_not_mem (l : List Asset) (k : String)
    (st : List (String × Bytes)) (h : ∀ a ∈ l, k ≠ a.CustodianName) :
    lookupList k (l.foldl (fun s a => putList a.CustodianName a.marshal s) st)
      = lookupList k st := by
  induction l generalizing st with
  | nil => rfl
  | cons hd tl ih =>
    rw [List.foldl_cons, ih _ (fun a ha => h a (List.mem_cons_of_mem _ ha)),
      lookupList_putList_ne _ _ _ _ (h hd (List.mem_cons_self _ _))]

theorem lookupList_seedFold_mem (l : List Asset) (a : Asset)
    (st : List (String × Bytes)) (ha : a ∈ l)
    (hnodup : (l.map Asset.CustodianName).Nodup) :
    lookupList a.CustodianName
        (l.foldl (fun s a2 => putList a2.CustodianName a2.marshal s) st)
      = some a.marshal := by
  induction l generalizing st with
  | nil => cases ha
  | cons hd tl ih =>
    rw [List.map_cons, List.nodup_cons] at hnodup
    rw [List.foldl_cons]
    rcases List.mem_cons.1 ha with rfl | hmem
    · have hnot : ∀ b ∈ tl, a.CustodianName ≠ b.CustodianName := by
        intro b hb heq
        exact hnodup.1 (heq ▸ List.mem_map_of_mem Asset.CustodianName hb)
      rw [lookupList_seedFold_not_mem _ _ _ hnot, lookupList_putList_self]
    · exact ih _ hmem hnodup.2

/-- Claim C8: `InitLedger` seeds exactly six fixed records, each written
unconditionally under its own `CustodianName` (overwriting whatever was
at that key) and touching no other key; if some put fails, the loop stops
at the first failing record and the records written before it stay in the
store. -/
theorem C8_seed_six_records (stub : Stub) :
    initAssets.length = 6 ∧
    ((∀ a ∈ initAssets, stub.putFails a.CustodianName = false) →
      (InitLedger stub).1 = none ∧
      (∀ a ∈ initAssets,
        lookupList a.CustodianName (InitLedger stub).2.state = some a.marshal) ∧
      (∀ k2, (∀ a ∈ initAssets, k2 ≠ a.CustodianName) →
        lookupList k2 (InitLedger stub).2.state = lookupList k2 stub.state)) ∧
    (∀ pre bad rest, initAssets = pre ++ bad :: rest →
      (∀ a ∈ pre, stub.putFails a.CustodianName = false) →
      stub.putFails bad.CustodianName = true →
      InitLedger stub = (some Err.storeError,
        { stub with state :=
            (pre.foldl (fun s a => putList a.CustodianName a.marshal s)
              stub.state) })) := by
  refine ⟨rfl, ?_, ?_⟩
  · intro h
    rw [InitLedger, seedLoop_no_failure _ _ h]
    refine ⟨rfl, ?_, ?_⟩
    · intro a ha
      exact lookupList_seedFold_mem initAssets a _ ha (by decide)
    · intro k2 hk2
      exact lookupList_seedFold_not_mem initAssets k2 _ hk2
  · intro pre bad rest heq hpre hbad
    rw [InitLedger, heq, seedLoop_stops_at_failure _ _ _ _ hpre hbad]

theorem C8_witness :
    (InitLedger ⟨[], fun _ => false, fun _ => false, fun _ => false, false⟩).1
      = none ∧
    lookupList "Zaki"
        (InitLedger ⟨[], fun _ => false, fun _ => false, fun _ => false, false⟩).2.state
      = some (Asset.marshal ⟨"Zaki", "RCED", "1", "HP01/HP02"⟩) := by
  have h := (C8_seed_six_records
    ⟨[], fun _ => false, fun _ => false, fun _ => false, false⟩).2.1
    (fun a _ => rfl)
  exact ⟨h.1, h.2.1 ⟨"Zaki", "RCED", "1", "HP01/HP02"⟩ (List.mem_cons_self _ _)⟩

/-- The implicit invariant of the ledger: every stored value decodes to a
record whose `CustodianName` equals the key it is stored under. -/
def KeyedByName (state : List (String × Bytes)) : Prop :=
  ∀ k bs, lookupList k state = some bs →
    ∃ a, jsonUnmarshal bs = some a ∧ a.CustodianName = k

theorem KeyedByName_put (state : List (String × Bytes))
    (h : KeyedByName state) (a : Asset) :
    KeyedByName (putList a.CustodianName a.marshal state) := by
  intro k bs hl
  by_cases hk : k = a.CustodianName
  · subst hk
    rw [lookupList_putList_self] at hl
    cases hl
    exact ⟨a, jsonUnmarshal_marshal a, rfl⟩
  · rw [lookupList_putList_ne _ _ _ _ hk] at hl
    exact h k bs hl

theorem lookupList_delList_some (k2 k : String) (l : List (String × Bytes))
    (bs : Bytes) (h : lookupList k2 (delList k l) = some bs) :
    lookupList k2 l = some bs := by
  by_cases hk : k2 = k
  · subst hk
    rw [lookupList_delList_self] at h
    cases h
  · rw [lookupList_delList_ne _ _ _ hk] at h
    exact h

theorem seedLoop_keyed (l : List Asset) (st : Stub) (h : KeyedByName st.state) :
    KeyedByName (seedLoop st l).2.state := by
  induction l generalizing st with
  | nil => exact h
  | cons hd tl ih =>
    by_cases hp : st.putFails hd.CustodianName
    · simpa [seedLoop, Stub.putState, hp] using h
    · simpa [seedLoop, Stub.putState, hp] using
        ih (Stub.mk (putList hd.CustodianName hd.marshal st.state)
          st.getFails st.putFails st.delFails st.rangeFails)
          (KeyedByName_put _ h hd)

/-- Claim C9: `InitLedger`, `CreateAsset`, `UpdateAsset` (and also
`DeleteAsset`) preserve the invariant that each key maps to a record
whose `CustodianName` equals that key, whatever they return, because
every write they issue stores a record under its own `CustodianName`;
`TransferAsset` is the operation that can break it: on a concrete store
satisfying the invariant, a transfer writes a record whose new custodian
name differs from the key `caseNumber` it is stored under. -/
theorem C9_key_name_invariant (stub : Stub) :
    (KeyedByName stub.state → KeyedByName (InitLedger stub).2.state) ∧
    (∀ n ag cn ev, KeyedByName stub.state →
      KeyedByName (CreateAsset stub n ag cn ev).2.state) ∧
    (∀ n ag cn ev, KeyedByName stub.state →
      KeyedByName (UpdateAsset stub n ag cn ev).2.state) ∧
    (∀ n, KeyedByName stub.state → KeyedByName (DeleteAsset stub n).2.state) ∧
    (KeyedByName [("1", Asset.marshal ⟨"1", "RCED", "1", "HP01/HP02"⟩)] ∧
      ¬ KeyedByName (TransferAsset
          ⟨[("1", Asset.marshal ⟨"1", "RCED", "1", "HP01/HP02"⟩)],
           fun _ => false, fun _ => false, fun _ => false, false⟩
          "1" "Dana" "CSB").2.state) := by
  refine ⟨?_, ?_, ?_, ?_, ?_, ?_⟩
  · intro h
    exact seedLoop_keyed initAssets stub h
  · intro n ag cn ev h
    by_cases hg : stub.getFails n
    · simpa [CreateAsset, AssetExists, Stub.getState, hg] using h
    · rcases hlook : lookupList n stub.state with _ | bs
      · by_cases hp : stub.putFails n
        · simpa [CreateAsset, AssetExists, Stub.getState, Stub.putState,
            hg, hlook, hp] using h
        · simpa [CreateAsset, AssetExists, Stub.getState, Stub.putState,
            hg, hlook, hp] using KeyedByName_put stub.state h ⟨n, ag, cn, ev⟩
      · simpa [CreateAsset, AssetExists, Stub.getState, hg, hlook] using h
  · intro n ag cn ev h
    by_cases hg : stub.getFails n
    · simpa [UpdateAsset, AssetExists, Stub.getState, hg] using h
    · rcases hlook : lookupList n stub.state with _ | bs
      · simpa [UpdateAsset, AssetExists, Stub.getState, hg, hlook] using h
      · by_cases hp : stub.putFails n
        · simpa [UpdateAsset, AssetExists, Stub.getState, Stub.putState,
            hg, hlook, hp] using h
        · simpa [UpdateAsset, AssetExists, Stub.getState, Stub.putState,
            hg, hlook, hp] using KeyedByName_put stub.state h ⟨n, ag, cn, ev⟩
  · intro n h
    by_cases hg : stub.getFails n
    · simpa [DeleteAsset, AssetExists, Stub.getState, hg] using h
    · rcases hlook : lookupList n stub.state with _ | bs
      · simpa [DeleteAsset, AssetExists, Stub.getState, hg, hlook] using h
      · by_cases hd : stub.delFails n
        · simpa [DeleteAsset, AssetExists, Stub.getState, Stub.delState,
            hg, hlook, hd] using h
        · have h2 : KeyedByName (delList n stub.state) :=
            fun k bs2 hl => h k bs2 (lookupList_delList_some _ _ _ _ hl)
          simpa [DeleteAsset, AssetExists, Stub.getState, Stub.delState,
            hg, hlook, hd] using h2
  · intro k bs hl
    by_cases hk : k = "1"
    · subst hk
      simp [lookupList] at hl
      exact ⟨⟨"1", "RCED", "1", "HP01/HP02"⟩, by rw [hl.symm]; exact jsonUnmarshal_marshal _, rfl⟩
    · simp [lookupList, hk] at hl
  · intro hcontra
    have hT : lookupList "1" (TransferAsset
        ⟨[("1", Asset.marshal ⟨"1", "RCED", "1", "HP01/HP02"⟩)],
         fun _ => false, fun _ => false, fun _ => false, false⟩
        "1" "Dana" "CSB").2.state
        = some (Asset.marshal ⟨"Dana", "CSB", "1", "HP01/HP02"⟩) := by
      simp [TransferAsset, ReadAsset, Stub.getState, Stub.putState,
        jsonUnmarshal_marshal, lookupList, putList]
    obtain ⟨a, ha, hname⟩ := hcontra "1"
      (Asset.marshal ⟨"Dana", "CSB", "1", "HP01/HP02"⟩) hT
    rw [jsonUnmarshal_marshal] at ha
    cases ha
    exact absurd hname (by decide)

theorem C9_witness :
    KeyedByName (CreateAsset ⟨[], fun _ => false, fun _ => false, fun _ => false, false⟩
        "Zaki" "RCED" "1" "HP01/HP02").2.state :=
  (C9_key_name_invariant
    ⟨[], fun _ => false, fun _ => false, fun _ => false, false⟩).2.1
    "Zaki" "RCED" "1" "HP01/HP02"
    (fun k bs hl => by simp [lookupList] at hl)

end CustodyChain
